import Mathlib

/-!
Shallow embedding of the per-record video-processing pipeline of
`youtube_download_portable.py` (the "Final Code" variant, together with the
multi-face variant at the repository root where the two differ).

External effects are made explicit:
  * the filesystem is a predicate `FS : String → Bool` on paths;
  * the network / ffmpeg / OpenCV nondeterminism is an explicit "world"
    parameter (per-attempt download outcomes, whether ffmpeg ran and wrote,
    the decoded frame stream with its detected face rectangles);
  * Python exceptions are `Except` values; a `try/except` block becomes an
    explicit handler on an `Except`-valued body;
  * `time.sleep` calls are recorded as a list of slept durations, and
    `log_failure` appends to an explicit list of `(id, reason, details)` lines.
-/

namespace YT

/-- A filesystem state: which paths currently exist. -/
abbrev FS := String → Bool

/-- The empty filesystem. -/
def FS.empty : FS := fun _ => false

/-- Create the file at path `p` (models a successful write). -/
def FS.put (fs : FS) (p : String) : FS := fun q => if q = p then true else fs q

/-- Remove the file at path `p` (models `os.remove`). -/
def FS.del (fs : FS) (p : String) : FS := fun q => if q = p then false else fs q

/-- `os.path.join` for the two-component joins used by the script. -/
def pjoin (d f : String) : String := d ++ "/" ++ f

/-- One line of the failure log: `youtube_id, reason, details`
(source: `log_failure`). -/
abbrev LogEntry := String × String × String

/-- Whether `pat` is an initial segment of `l` (character lists). -/
def isPrefixL : List Char → List Char → Bool
  | [], _ => true
  | _ :: _, [] => false
  | a :: as, b :: bs => a == b && isPrefixL as bs

/-- Whether `pat` occurs as a contiguous substring of `l`
(models Python `pat in s` on strings). -/
def containsL (pat : List Char) : List Char → Bool
  | [] => isPrefixL pat []
  | c :: t => isPrefixL pat (c :: t) || containsL pat t

/-- Python `pat in s` for strings. -/
def strContains (s pat : String) : Bool := containsL pat.data s.data

/-- Python `s.lower()`: lowercase character by character. -/
def strLower (s : String) : String := String.mk (s.data.map Char.toLower)

/-- The error classification in `download_video`:
`any(x in error_str for x in ["age", "inappropriate", "sign in"])`. -/
def isRestrictedError (error_str : String) : Bool :=
  ["age", "inappropriate", "sign in"].any (fun x => strContains error_str x)

/-- External behaviour of one `yt_dlp` attempt: `outcome` is `ok` when
`extract_info` returns non-`None` without raising (the value is unit, the
function then checks the filesystem itself), `error e` when the attempt
raises with message `e`; `writes` says whether the attempt left a file at
the destination path (partial downloads may be left behind on failure). -/
structure DlAttempt where
  outcome : Except String Unit
  writes : Bool

/-- Result of a `download_video` call: the returned boolean, the filesystem
afterwards, the number of `yt_dlp` attempts made, the durations passed to
`time.sleep` between attempts (in order), and the `log_failure` lines. -/
structure DlResult where
  result : Bool
  fs : FS
  attempts : Nat
  sleeps : List Nat
  logs : List LogEntry

/-- The recursion of `download_video(youtube_id, output_path, retry)`,
made structural on the remaining retry budget `maxRetries - retry`
(the source guard `retry < MAX_RETRIES` is exactly `0 < budget`, and each
recursive call increments `retry` by one, so the budget decrements by one):
try one attempt; on success return `os.path.exists(output_path)`; on an
exception, if retries remain classify the lowercased error text
(age-restricted / sign-in vs generic) — both branches sleep `2 ** retry`
seconds and recurse with `retry + 1` — otherwise log `"Download failed"`
and return `False`. -/
def downloadAux (env : Nat → DlAttempt) (youtube_id output_path : String) :
    Nat → FS → Nat → DlResult
  | budget, fs, retry =>
    let a := env retry
    let fs1 := if a.writes then fs.put output_path else fs
    match a.outcome with
    | Except.ok _ => ⟨fs1 output_path, fs1, 1, [], []⟩
    | Except.error e =>
      let error_str := strLower e
      match budget with
      | b + 1 =>
        if isRestrictedError error_str then
          -- special handling for age verification (identical to the generic case)
          let r := downloadAux env youtube_id output_path b fs1 (retry + 1)
          ⟨r.result, r.fs, r.attempts + 1, 2 ^ retry :: r.sleeps, r.logs⟩
        else
          let r := downloadAux env youtube_id output_path b fs1 (retry + 1)
          ⟨r.result, r.fs, r.attempts + 1, 2 ^ retry :: r.sleeps, r.logs⟩
      | 0 =>
        ⟨false, fs1, 1, [], [(youtube_id, "Download failed", e)]⟩

/-- `download_video(youtube_id, output_path, retry)` from the source, with
the call's remaining retry budget `MAX_RETRIES - retry` made explicit. -/
def download_video (env : Nat → DlAttempt) (maxRetries : Nat)
    (youtube_id output_path : String) (fs : FS) (retry : Nat) : DlResult :=
  downloadAux env youtube_id output_path (maxRetries - retry) fs retry

/-- Spec-side reference for C9: the same retry loop with no error
classification at all (the spec says both categories follow the same
retry policy as the generic case). -/
def downloadUniformAux (env : Nat → DlAttempt) (youtube_id output_path : String) :
    Nat → FS → Nat → DlResult
  | budget, fs, retry =>
    let a := env retry
    let fs1 := if a.writes then fs.put output_path else fs
    match a.outcome with
    | Except.ok _ => ⟨fs1 output_path, fs1, 1, [], []⟩
    | Except.error e =>
      match budget with
      | b + 1 =>
        let r := downloadUniformAux env youtube_id output_path b fs1 (retry + 1)
        ⟨r.result, r.fs, r.attempts + 1, 2 ^ retry :: r.sleeps, r.logs⟩
      | 0 =>
        ⟨false, fs1, 1, [], [(youtube_id, "Download failed", e)]⟩

/-- Spec-side reference for C9, top-level entry point. -/
def download_video_uniform (env : Nat → DlAttempt) (maxRetries : Nat)
    (youtube_id output_path : String) (fs : FS) (retry : Nat) : DlResult :=
  downloadUniformAux env youtube_id output_path (maxRetries - retry) fs retry

/-- The counter state of `ProgressTracker` (the time fields and printing of
the source class are I/O and are omitted; `current_youtube_id` is kept). -/
structure ProgressTracker where
  total_items : Nat
  completed : Nat
  failed : Nat
  current_item : Nat
  current_youtube_id : String

/-- `ProgressTracker.__init__(total_items)`. -/
def ProgressTracker.init (total_items : Nat) : ProgressTracker :=
  ⟨total_items, 0, 0, 0, ""⟩

/-- `ProgressTracker.update(success, youtube_id, row_number)`: increment
`current_item`, record the id, and increment `completed` on success,
`failed` otherwise (the progress printing is I/O and not modelled). -/
def ProgressTracker.update (t : ProgressTracker) (success : Bool)
    (youtube_id : String) (_row_number : Nat) : ProgressTracker :=
  let t1 := { t with current_item := t.current_item + 1,
                     current_youtube_id := youtube_id }
  if success then { t1 with completed := t1.completed + 1 }
  else { t1 with failed := t1.failed + 1 }

/-- The ffmpeg invocation built by `extract_audio`: input seek `ss`
(0 when no `ss` keyword is passed), optional duration limit `t`,
audio codec and sample rate. -/
structure FfmpegCall where
  ss : ℚ
  t : Option ℚ
  acodec : String
  ar : Nat
deriving DecidableEq

/-- External behaviour of the `ffmpeg.run` call inside `extract_audio`:
`runOk` is false when the call raises; `creates` says whether a file was
left at the output path (a run that raises may still have written). -/
structure AudioWorld where
  runOk : Bool
  creates : Bool

/-- Result of an `extract_audio` call: the returned boolean, the filesystem
afterwards, and the ffmpeg invocation that was built. -/
structure AudioResult where
  result : Bool
  fs : FS
  call : FfmpegCall

/-- `extract_audio(video_path, audio_path, start_time, end_time)` from the
source ("Final Code" variant): coerce missing times to `0.0`; if
`end > 0 and end > start`, build the trimmed invocation
`input(video_path, ss=start)` with `t = end - start`; otherwise reset
`start` to `0` and build the untrimmed invocation; both use
`acodec=pcm_s16le, ar=16000`; run it and return
`os.path.exists(audio_path)`; any exception yields `False`. -/
def extract_audio (w : AudioWorld) (fs : FS) (_video_path audio_path : String)
    (start_time end_time : Option ℚ) : AudioResult :=
  let start := start_time.getD 0
  let endv := end_time.getD 0
  let call : FfmpegCall :=
    if 0 < endv ∧ start < endv then ⟨start, some (endv - start), "pcm_s16le", 16000⟩
    else ⟨0, none, "pcm_s16le", 16000⟩
  let fs1 := if w.creates then fs.put audio_path else fs
  if w.runOk then ⟨fs1 audio_path, fs1, call⟩ else ⟨false, fs1, call⟩

/-- A face rectangle `(x, y, w, h)` as returned by
`face_cascade.detectMultiScale`. -/
structure Face where
  x : Nat
  y : Nat
  w : Nat
  h : Nat
deriving DecidableEq

/-- The size filter of the single-face variant: `w >= 50 and h >= 50`. -/
def qualifies (f : Face) : Bool := 50 ≤ f.w && 50 ≤ f.h

/-- A decoded video as seen by the face stage: `none` when
`cap.isOpened()` is false, otherwise the frame stream, each frame carrying
the face rectangles the cascade detector reports on it. -/
abbrev Video := Option (List (List Face))

/-- The frame stream of a video (`none` decodes no frames). -/
def videoFrames : Video → List (List Face)
  | none => []
  | some frames => frames

/-- The frames the loop actually evaluates, starting from frame counter
`cnt`: each frame increments the counter and is kept only when the new
counter is divisible by 30 (`frame_count % 30 != 0: continue`). -/
def sampledFrom (cnt : Nat) : List (List Face) → List (List Face)
  | [] => []
  | fr :: rest =>
    if (cnt + 1) % 30 = 0 then fr :: sampledFrom (cnt + 1) rest
    else sampledFrom (cnt + 1) rest

/-- The scanning loop of the single-face `extract_faces`: walk the frame
stream keeping the `frame_count` counter; on each evaluated frame take the
first detected face with `w >= 50 and h >= 50`; stop at the first such
face (`face_found` breaks the outer loop). -/
def scanSingle (cnt : Nat) : List (List Face) → Option Face
  | [] => none
  | fr :: rest =>
    if (cnt + 1) % 30 = 0 then
      match fr.find? qualifies with
      | some f => some f
      | none => scanSingle (cnt + 1) rest
    else scanSingle (cnt + 1) rest

/-- Specification-side description of the single-face scan: the first face
satisfying the size filter, taking frames in order and, within a frame,
faces in detector output order. -/
def firstQual : List (List Face) → Option Face
  | [] => none
  | fr :: rest =>
    match fr.find? qualifies with
    | some f => some f
    | none => firstQual rest

/-- Result of an `extract_faces` call: the returned boolean, the filesystem
afterwards, and the face crops written (in order). -/
structure FaceResult where
  result : Bool
  fs : FS
  writes : List Face

/-- `extract_faces(video_path, face_path, youtube_id)` from the "Final Code"
variant (single-face policy): fail when the capture cannot be opened;
otherwise scan every 30th frame for the first face of size at least 50×50,
write exactly that one crop to `face_path`, and return whether one was
found. -/
def extract_faces (video : Video) (fs : FS) (face_path : String) : FaceResult :=
  match video with
  | none => ⟨false, fs, []⟩
  | some frames =>
    match scanSingle 0 frames with
    | some f => ⟨true, fs.put face_path, [f]⟩
    | none => ⟨false, fs, []⟩

/-- The collecting loop of the multi-face `extract_faces` (root variant):
walk the frame stream while `faces_found < 10`; on each evaluated frame
write every detected face (no size filter), stopping once 10 crops have
been written in total. Returns the crops written, in order. -/
def scanMulti : Nat → Nat → List (List Face) → List Face
  | _, _, [] => []
  | cnt, found, fr :: rest =>
    if found < 10 then
      if (cnt + 1) % 30 = 0 then
        let ws := fr.take (10 - found)
        ws ++ scanMulti (cnt + 1) (found + ws.length) rest
      else scanMulti (cnt + 1) found rest
    else []

/-- The path of the `n`-th face crop of the multi-face variant:
`os.path.join(face_dir, f"{youtube_id}_face_{faces_found}.jpg")`. -/
def facePathN (face_dir youtube_id : String) (n : Nat) : String :=
  pjoin face_dir (youtube_id ++ "_face_" ++ toString n ++ ".jpg")

/-- `extract_faces(video_path, face_dir, youtube_id)` from the root variant
(multi-face policy): fail when the capture cannot be opened; otherwise scan
every 30th frame, writing every detected face crop regardless of size until
10 have been written; return `faces_found > 0`. -/
def extract_faces_multi (video : Video) (fs : FS)
    (face_dir youtube_id : String) : FaceResult :=
  match video with
  | none => ⟨false, fs, []⟩
  | some frames =>
    let ws := scanMulti 0 0 frames
    let fs1 := (List.range ws.length).foldl
      (fun acc n => acc.put (facePathN face_dir youtube_id n)) fs
    ⟨decide (0 < ws.length), fs1, ws⟩

/-- The external nondeterminism one `process_video` call is exposed to:
the per-attempt download outcomes, the ffmpeg behaviour, the decoded video
as the face stage sees it, and whether the final `os.remove` raises
(`some e` = it raises with message `e`). -/
structure PWorld where
  dlEnv : Nat → DlAttempt
  audio : AudioWorld
  video : Video
  removeExc : Option String

/-- The configuration values `process_video` reads from `config.py`. -/
structure Config where
  OUTPUT_DIR : String
  AUDIO_DIR : String
  FACE_DIR : String
  MAX_RETRIES : Nat

/-- Result of a `process_video` call: the returned boolean, the filesystem
afterwards, and all failure-log lines appended during the call. -/
structure ProcResult where
  result : Bool
  fs : FS
  logs : List LogEntry

/-- The transient video artifact path of a record:
`os.path.join(OUTPUT_DIR, f"{youtube_id}_full.mp4")`. -/
def videoPathOf (cfg : Config) (youtube_id : String) : String :=
  pjoin cfg.OUTPUT_DIR (youtube_id ++ "_full.mp4")

/-- The audio artifact path of a record:
`os.path.join(AUDIO_DIR, f"{youtube_id}_audio.wav")`. -/
def audioPathOf (cfg : Config) (youtube_id : String) : String :=
  pjoin cfg.AUDIO_DIR (youtube_id ++ "_audio.wav")

/-- The face artifact path of a record (single-face variant):
`os.path.join(FACE_DIR, f"{youtube_id}_face.jpg")`. -/
def facePathOf (cfg : Config) (youtube_id : String) : String :=
  pjoin cfg.FACE_DIR (youtube_id ++ "_face.jpg")

/-- The `try:` block of `process_video` ("Final Code" variant): download,
then extract audio, then extract the face, each stage returning `False`
aborting with a `False` return and no cleanup; on full stage success,
remove the video file if it exists and return `True`. An exception inside
the block (here: `os.remove` raising) escapes as `Except.error` carrying
the message and the state at the raise point. -/
def process_video_try (cfg : Config) (w : PWorld) (fs : FS)
    (youtube_id : String) (start_time end_time : Option ℚ) :
    Except (String × FS × List LogEntry) ProcResult :=
  let video_path := videoPathOf cfg youtube_id
  let audio_path := audioPathOf cfg youtube_id
  let face_path := facePathOf cfg youtube_id
  let dl := download_video w.dlEnv cfg.MAX_RETRIES youtube_id video_path fs 0
  if dl.result = false then Except.ok ⟨false, dl.fs, dl.logs⟩
  else
    let au := extract_audio w.audio dl.fs video_path audio_path start_time end_time
    if au.result = false then Except.ok ⟨false, au.fs, dl.logs⟩
    else
      let fc := extract_faces w.video au.fs face_path
      if fc.result = false then Except.ok ⟨false, fc.fs, dl.logs⟩
      else
        if fc.fs video_path then
          match w.removeExc with
          | some e => Except.error (e, fc.fs, dl.logs)
          | none => Except.ok ⟨true, fc.fs.del video_path, dl.logs⟩
        else Except.ok ⟨true, fc.fs, dl.logs⟩

/-- `process_video(args)` ("Final Code" variant): run the `try:` block; an
exception is caught by `except Exception as e`, which calls
`log_failure(youtube_id, "Processing failed", str(e))` and returns
`False`. -/
def process_video (cfg : Config) (w : PWorld) (fs : FS)
    (youtube_id : String) (start_time end_time : Option ℚ) : ProcResult :=
  match process_video_try cfg w fs youtube_id start_time end_time with
  | Except.ok r => r
  | Except.error (e, fs1, logs) =>
    ⟨false, fs1, logs ++ [(youtube_id, "Processing failed", e)]⟩

/-- The download stage of a `process_video` call (the `download_video` call
it makes, on the initial filesystem). -/
def dlOf (cfg : Config) (w : PWorld) (fs : FS) (youtube_id : String) : DlResult :=
  download_video w.dlEnv cfg.MAX_RETRIES youtube_id (videoPathOf cfg youtube_id) fs 0

/-- The audio stage of a `process_video` call (the `extract_audio` call it
makes when the download stage returned `True`). -/
def auOf (cfg : Config) (w : PWorld) (fs : FS) (youtube_id : String)
    (start_time end_time : Option ℚ) : AudioResult :=
  extract_audio w.audio (dlOf cfg w fs youtube_id).fs (videoPathOf cfg youtube_id)
    (audioPathOf cfg youtube_id) start_time end_time

/-- The face stage of a `process_video` call (the `extract_faces` call it
makes when the audio stage returned `True`). -/
def fcOf (cfg : Config) (w : PWorld) (fs : FS) (youtube_id : String)
    (start_time end_time : Option ℚ) : FaceResult :=
  extract_faces w.video (auOf cfg w fs youtube_id start_time end_time).fs
    (facePathOf cfg youtube_id)

/-- One input record with the world it will run against. -/
abbrev RecordRun := PWorld × String × Option ℚ × Option ℚ

/-- The `WORKERS == 1` loop of `main`: run `process_video` on each record
in order, feed each outcome to `progress.update`, and accumulate the
failure-log lines. -/
def runRecords (cfg : Config) :
    List RecordRun → FS → ProgressTracker → List LogEntry →
    FS × ProgressTracker × List LogEntry
  | [], fs, t, logs => (fs, t, logs)
  | (w, youtube_id, st, et) :: rest, fs, t, logs =>
    let r := process_video cfg w fs youtube_id st et
    runRecords cfg rest r.fs (t.update r.result youtube_id 0) (logs ++ r.logs)

/-! ### Lemmas about the download retry loop -/

theorem downloadAux_result_fs (env : Nat → DlAttempt) (youtube_id output_path : String) :
    ∀ (budget : Nat) (fs : FS) (retry : Nat),
      (downloadAux env youtube_id output_path budget fs retry).result = true →
      (downloadAux env youtube_id output_path budget fs retry).fs output_path = true := by
  intro budget
  induction budget with
  | zero =>
    intro fs retry h
    rw [downloadAux] at h ⊢
    cases hout : (env retry).outcome with
    | ok u => simpa [hout] using h
    | error e => simp [hout] at h
  | succ b ih =>
    intro fs retry h
    rw [downloadAux] at h ⊢
    cases hout : (env retry).outcome with
    | ok u => simpa [hout] using h
    | error e =>
      simp only [hout, ite_self] at h ⊢
      exact ih _ _ h

theorem downloadAux_logs_nil (env : Nat → DlAttempt) (youtube_id output_path : String) :
    ∀ (budget : Nat) (fs : FS) (retry : Nat),
      (downloadAux env youtube_id output_path budget fs retry).result = true →
      (downloadAux env youtube_id output_path budget fs retry).logs = [] := by
  intro budget
  induction budget with
  | zero =>
    intro fs retry h
    rw [downloadAux] at h ⊢
    cases hout : (env retry).outcome with
    | ok u => simp [hout]
    | error e => simp [hout] at h
  | succ b ih =>
    intro fs retry h
    rw [downloadAux] at h ⊢
    cases hout : (env retry).outcome with
    | ok u => simp [hout]
    | error e =>
      simp only [hout, ite_self] at h ⊢
      exact ih _ _ h

theorem downloadAux_allfail (env : Nat → DlAttempt) (youtube_id output_path : String)
    (henv : ∀ i, ∃ e, (env i).outcome = Except.error e) :
    ∀ (budget : Nat) (fs : FS) (retry : Nat),
      (downloadAux env youtube_id output_path budget fs retry).result = false ∧
      (downloadAux env youtube_id output_path budget fs retry).attempts = budget + 1 ∧
      (downloadAux env youtube_id output_path budget fs retry).sleeps =
        (List.range budget).map (fun j => 2 ^ (retry + j)) ∧
      (downloadAux env youtube_id output_path budget fs retry).logs.length = 1 := by
  intro budget
  induction budget with
  | zero =>
    intro fs retry
    obtain ⟨e, he⟩ := henv retry
    rw [downloadAux]
    simp [he]
  | succ b ih =>
    intro fs retry
    obtain ⟨e, he⟩ := henv retry
    rw [downloadAux]
    simp only [he, ite_self]
    obtain ⟨h1, h2, h3, h4⟩ :=
      ih (if (env retry).writes then FS.put fs output_path else fs) (retry + 1)
    refine ⟨h1, by simp [h2], ?_, by simpa using h4⟩
    simp only [h3, List.range_succ_eq_map, List.map_cons, List.map_map]
    refine congrArg₂ _ (by simp) (List.map_congr_left ?_)
    intro a _
    simp [Function.comp, Nat.add_right_comm, Nat.add_assoc, Nat.add_comm 1 a]

/-- C3: if every download attempt raises, the loop makes exactly
`MAX_RETRIES + 1` attempts (retry counters 0 through `MAX_RETRIES`), the
backoff delay slept between attempt `i` and attempt `i + 1` is `2 ^ i`
seconds, and the sequence of delays is monotonically non-decreasing. -/
theorem download_always_fails_retry_count (env : Nat → DlAttempt) (maxRetries : Nat)
    (youtube_id output_path : String) (fs : FS)
    (henv : ∀ i, ∃ e, (env i).outcome = Except.error e) :
    (download_video env maxRetries youtube_id output_path fs 0).attempts = maxRetries + 1 ∧
    (download_video env maxRetries youtube_id output_path fs 0).sleeps =
      (List.range maxRetries).map (fun i => 2 ^ i) ∧
    List.Pairwise (· ≤ ·) (download_video env maxRetries youtube_id output_path fs 0).sleeps ∧
    (download_video env maxRetries youtube_id output_path fs 0).result = false := by
  obtain ⟨h1, h2, h3, -⟩ := downloadAux_allfail env youtube_id output_path henv maxRetries fs 0
  have hsl : (download_video env maxRetries youtube_id output_path fs 0).sleeps =
      (List.range maxRetries).map (fun i => 2 ^ i) := by
    unfold download_video
    rw [Nat.sub_zero] at *
    rw [h3]
    exact List.map_congr_left (fun a _ => by simp)
  refine ⟨?_, hsl, ?_, ?_⟩
  · unfold download_video; rw [Nat.sub_zero] at *; exact h2
  · rw [hsl]
    exact List.Pairwise.map _ (fun a b hab => Nat.pow_le_pow_right (by norm_num) hab)
      (List.pairwise_le_range maxRetries)
  · unfold download_video; rw [Nat.sub_zero] at *; exact h1

/-- Witness for C3 at a concrete always-failing environment with
`MAX_RETRIES = 3` (the production configuration). -/
theorem download_always_fails_retry_count_witness :
    (download_video (fun _ => ⟨Except.error "network", false⟩) 3 "v" "p" FS.empty 0).attempts = 4 ∧
    (download_video (fun _ => ⟨Except.error "network", false⟩) 3 "v" "p" FS.empty 0).sleeps = [1, 2, 4] ∧
    (download_video (fun _ => ⟨Except.error "network", false⟩) 3 "v" "p" FS.empty 0).result = false := by
  obtain ⟨h1, h2, -, h4⟩ := download_always_fails_retry_count
    (fun _ => ⟨Except.error "network", false⟩) 3 "v" "p" FS.empty (fun _ => ⟨"network", rfl⟩)
  exact ⟨h1, by rw [h2]; rfl, h4⟩

theorem downloadAux_eq_uniform (env : Nat → DlAttempt) (youtube_id output_path : String) :
    ∀ (budget : Nat) (fs : FS) (retry : Nat),
      downloadAux env youtube_id output_path budget fs retry =
        downloadUniformAux env youtube_id output_path budget fs retry := by
  intro budget
  induction budget with
  | zero =>
    intro fs retry
    rw [downloadAux, downloadUniformAux]
  | succ b ih =>
    intro fs retry
    rw [downloadAux, downloadUniformAux]
    cases hout : (env retry).outcome with
    | ok u => rfl
    | error e => simp only [ite_self, ih]

/-- C9: the retry behaviour of `download_video` on an error classified as
age-restricted / sign-in-required is identical to its behaviour on a
generic error: the whole function equals the variant with no error
classification at all (same `2 ^ attempt` backoff, same recursion). -/
theorem download_restricted_equals_generic (env : Nat → DlAttempt) (maxRetries : Nat)
    (youtube_id output_path : String) (fs : FS) (retry : Nat) :
    download_video env maxRetries youtube_id output_path fs retry =
      download_video_uniform env maxRetries youtube_id output_path fs retry := by
  unfold download_video download_video_uniform
  exact downloadAux_eq_uniform env youtube_id output_path _ fs retry

/-! ### The audio trim policy (C5) -/

/-- C5 counterexample: for `startOffset = -2`, `endOffset = -1` we have
`endOffset > startOffset`, yet `extract_audio` does not take the trim
branch (the source condition is `end > 0 and end > start`): the invocation
it builds seeks to 0 with no duration limit, not to `-2` with duration
`1`. This refutes the claim that the trim branch is taken whenever
`endOffset > startOffset`. -/
theorem extract_audio_trim_counterexample :
    ((-2 : ℚ) < -1) ∧
    (extract_audio ⟨true, true⟩ FS.empty "v" "a" (some (-2)) (some (-1))).call.ss = 0 ∧
    (extract_audio ⟨true, true⟩ FS.empty "v" "a" (some (-2)) (some (-1))).call.t = none ∧
    ¬ ((extract_audio ⟨true, true⟩ FS.empty "v" "a" (some (-2)) (some (-1))).call.ss = -2 ∧
       (extract_audio ⟨true, true⟩ FS.empty "v" "a" (some (-2)) (some (-1))).call.t =
         some ((-1) - (-2))) := by
  refine ⟨by norm_num, ?_, ?_, ?_⟩ <;> simp [extract_audio, FfmpegCall.mk.injEq] <;> norm_num

/-- C5 (amended): the trim branch is taken exactly when
`endOffset > 0` and `endOffset > startOffset` (missing offsets coerce to
0); it then seeks to `startOffset` with duration `endOffset − startOffset`.
In every other case — including `endOffset > startOffset` with
`endOffset ≤ 0` — the full track is transcoded from offset 0 with no
duration limit. In both branches the output format is the fixed
`pcm_s16le` at 16 kHz. -/
theorem extract_audio_trim_policy (w : AudioWorld) (fs : FS)
    (video_path audio_path : String) (start_time end_time : Option ℚ) :
    (0 < end_time.getD 0 → start_time.getD 0 < end_time.getD 0 →
      (extract_audio w fs video_path audio_path start_time end_time).call =
        ⟨start_time.getD 0, some (end_time.getD 0 - start_time.getD 0), "pcm_s16le", 16000⟩) ∧
    (¬ (0 < end_time.getD 0 ∧ start_time.getD 0 < end_time.getD 0) →
      (extract_audio w fs video_path audio_path start_time end_time).call =
        ⟨0, none, "pcm_s16le", 16000⟩) ∧
    (extract_audio w fs video_path audio_path start_time end_time).call.acodec = "pcm_s16le" ∧
    (extract_audio w fs video_path audio_path start_time end_time).call.ar = 16000 := by
  by_cases hc : 0 < end_time.getD 0 ∧ start_time.getD 0 < end_time.getD 0
  · refine ⟨fun _ _ => ?_, fun hn => absurd hc hn, ?_, ?_⟩ <;>
      simp [extract_audio, hc, apply_ite AudioResult.call]
  · refine ⟨fun h1 h2 => absurd ⟨h1, h2⟩ hc, fun _ => ?_, ?_, ?_⟩ <;>
      simp [extract_audio, hc, apply_ite AudioResult.call]

/-- Witness for C5 (amended) on the trim branch, at
`startOffset = 10, endOffset = 15`. -/
theorem extract_audio_trim_policy_witness :
    (0 : ℚ) < 15 ∧ (10 : ℚ) < 15 ∧
    (extract_audio ⟨true, true⟩ FS.empty "v" "a" (some 10) (some 15)).call =
      ⟨10, some 5, "pcm_s16le", 16000⟩ := by
  have h := (extract_audio_trim_policy ⟨true, true⟩ FS.empty "v" "a"
    (some 10) (some 15)).1 (by norm_num) (by norm_num)
  refine ⟨by norm_num, by norm_num, ?_⟩
  rw [h]
  norm_num

/-! ### The progress tracker counters (C10) -/

theorem progress_foldl_invariant (f : ProgressTracker)
    (hf : f.current_item = f.completed + f.failed) :
    ∀ (updates : List (Bool × String × Nat)),
      ((updates.foldl (fun s u => s.update u.1 u.2.1 u.2.2) f).current_item =
        (updates.foldl (fun s u => s.update u.1 u.2.1 u.2.2) f).completed +
          (updates.foldl (fun s u => s.update u.1 u.2.1 u.2.2) f).failed) := by
  intro updates
  induction updates generalizing f with
  | nil => simpa using hf
  | cons u rest ih =>
    simp only [List.foldl_cons]
    refine ih _ ?_
    cases hb : u.1 <;> simp [ProgressTracker.update, hf] <;> omega

/-- C10: starting from a fresh tracker, after any sequence of `update`
calls the invariant `current_item = completed + failed` holds; moreover a
single `update` always increments `current_item` by exactly one, and
increments `completed` on success and `failed` on failure, never both. -/
theorem progress_tracker_counts (total : Nat) (updates : List (Bool × String × Nat))
    (t : ProgressTracker) (b : Bool) (yid : String) (row : Nat) :
    ((updates.foldl (fun s u => s.update u.1 u.2.1 u.2.2)
        (ProgressTracker.init total)).current_item =
      (updates.foldl (fun s u => s.update u.1 u.2.1 u.2.2)
        (ProgressTracker.init total)).completed +
      (updates.foldl (fun s u => s.update u.1 u.2.1 u.2.2)
        (ProgressTracker.init total)).failed) ∧
    (t.update b yid row).current_item = t.current_item + 1 ∧
    (t.update true yid row).completed = t.completed + 1 ∧
    (t.update true yid row).failed = t.failed ∧
    (t.update false yid row).completed = t.completed ∧
    (t.update false yid row).failed = t.failed + 1 := by
  refine ⟨progress_foldl_invariant _ (by simp [ProgressTracker.init]) updates, ?_, ?_, ?_, ?_, ?_⟩ <;>
    cases b <;> simp [ProgressTracker.update]

/-! ### The face selection policies (C6, C7) -/

theorem scanSingle_eq_firstQual :
    ∀ (l : List (List Face)) (cnt : Nat),
      scanSingle cnt l = firstQual (sampledFrom cnt l) := by
  intro l
  induction l with
  | nil => intro cnt; simp [scanSingle, sampledFrom, firstQual]
  | cons fr rest ih =>
    intro cnt
    by_cases h30 : (cnt + 1) % 30 = 0
    · simp only [scanSingle, sampledFrom, h30, if_true]
      cases hf : fr.find? qualifies with
      | some f => simp [firstQual, hf]
      | none => simp [firstQual, hf, ih]
    · simp [scanSingle, sampledFrom, h30, ih]

theorem firstQual_none_iff (l : List (List Face)) :
    firstQual l = none ↔ ∀ fr ∈ l, ∀ f ∈ fr, qualifies f = false := by
  induction l with
  | nil => simp [firstQual]
  | cons fr rest ih =>
    cases hf : fr.find? qualifies with
    | some f =>
      simp only [firstQual, hf]
      constructor
      · intro h; exact absurd h (by simp)
      · intro h
        have := h fr (by simp) f (List.mem_of_find?_eq_some hf)
        rw [List.find?_some hf] at this
        cases this
    | none =>
      simp only [firstQual, hf, ih]
      constructor
      · intro h
        intro fr2 hfr2 f hfmem
        rcases List.mem_cons.mp hfr2 with rfl | hfr2
        · have := List.find?_eq_none.mp hf f hfmem
          simpa using this
        · exact h fr2 hfr2 f hfmem
      · intro h fr2 hfr2 f hfmem
        exact h fr2 (List.mem_cons_of_mem _ hfr2) f hfmem

theorem firstQual_some_qualifies :
    ∀ {l : List (List Face)} {f : Face}, firstQual l = some f → qualifies f = true := by
  intro l
  induction l with
  | nil => intro f h; simp [firstQual] at h
  | cons fr rest ih =>
    intro f h
    cases hf : fr.find? qualifies with
    | some g =>
      simp only [firstQual, hf, Option.some.injEq] at h
      exact h ▸ List.find?_some hf
    | none =>
      simp only [firstQual, hf] at h
      exact ih h

theorem firstQual_some_mem :
    ∀ {l : List (List Face)} {f : Face}, firstQual l = some f → ∃ fr ∈ l, f ∈ fr := by
  intro l
  induction l with
  | nil => intro f h; simp [firstQual] at h
  | cons fr rest ih =>
    intro f h
    cases hf : fr.find? qualifies with
    | some g =>
      simp only [firstQual, hf, Option.some.injEq] at h
      exact ⟨fr, by simp, h ▸ List.mem_of_find?_eq_some hf⟩
    | none =>
      simp only [firstQual, hf] at h
      obtain ⟨fr2, h1, h2⟩ := ih h
      exact ⟨fr2, List.mem_cons_of_mem _ h1, h2⟩

/-- C6: under the single-face policy, every crop written is at least
50×50 pixels, at most one crop is written per record (the scan stops at
the first qualifying face), and the call reports failure exactly when no
face of sufficient size occurs in any of the sampled (every-30th)
frames. -/
theorem extract_faces_single_policy (video : Video) (fs : FS) (face_path : String) :
    (∀ f ∈ (extract_faces video fs face_path).writes, 50 ≤ f.w ∧ 50 ≤ f.h) ∧
    (extract_faces video fs face_path).writes.length ≤ 1 ∧
    ((extract_faces video fs face_path).result = false ↔
      ∀ fr ∈ sampledFrom 0 (videoFrames video), ∀ f ∈ fr, qualifies f = false) := by
  cases video with
  | none => simp [extract_faces, videoFrames, sampledFrom]
  | some frames =>
    cases hs : scanSingle 0 frames with
    | some f =>
      have hq := firstQual_some_qualifies (scanSingle_eq_firstQual frames 0 ▸ hs)
      have hq2 : 50 ≤ f.w ∧ 50 ≤ f.h := by
        simpa [qualifies, Bool.and_eq_true, decide_eq_true_eq] using hq
      refine ⟨?_, ?_, ?_⟩
      · intro g hg
        simp only [extract_faces, hs, List.mem_singleton] at hg
        exact hg ▸ hq2
      · simp [extract_faces, hs]
      · simp only [extract_faces, hs, videoFrames]
        constructor
        · intro h; cases h
        · intro h
          obtain ⟨fr, hfr, hmem⟩ := firstQual_some_mem (scanSingle_eq_firstQual frames 0 ▸ hs)
          have := h fr hfr f hmem
          rw [hq] at this
          cases this
    | none =>
      refine ⟨by simp [extract_faces, hs], by simp [extract_faces, hs], ?_⟩
      simp only [extract_faces, hs, videoFrames]
      constructor
      · intro _
        exact (firstQual_none_iff _).mp (scanSingle_eq_firstQual frames 0 ▸ hs)
      · intro _; trivial

/-- Witness for C6: a video whose 30th frame carries a 60×70 face; the
crop written is that face and it passes the size bound. -/
theorem extract_faces_single_policy_witness :
    (⟨0, 0, 60, 70⟩ : Face) ∈
      (extract_faces (some (List.replicate 29 [] ++ [[⟨0, 0, 60, 70⟩]]))
        FS.empty "faces/v_face.jpg").writes ∧
    50 ≤ (⟨0, 0, 60, 70⟩ : Face).w ∧ 50 ≤ (⟨0, 0, 60, 70⟩ : Face).h := by
  have h := (extract_faces_single_policy
    (some (List.replicate 29 [] ++ [[⟨0, 0, 60, 70⟩]])) FS.empty "faces/v_face.jpg").1
    ⟨0, 0, 60, 70⟩ (by decide)
  exact ⟨by decide, h⟩

theorem scanMulti_eq_take :
    ∀ (l : List (List Face)) (cnt found : Nat),
      scanMulti cnt found l = ((sampledFrom cnt l).flatten).take (10 - found) := by
  intro l
  induction l with
  | nil => intro cnt found; simp [scanMulti, sampledFrom]
  | cons fr rest ih =>
    intro cnt found
    by_cases hf : found < 10
    · by_cases h30 : (cnt + 1) % 30 = 0
      · simp only [scanMulti, sampledFrom, hf, h30, if_true, List.flatten_cons]
        rw [List.take_append_eq_append_take, ih, List.length_take]
        have harith : 10 - (found + min (10 - found) fr.length) = 10 - found - fr.length := by
          omega
        rw [harith]
      · simp [scanMulti, sampledFrom, hf, h30, ih]
    · have h0 : 10 - found = 0 := by omega
      simp [scanMulti, sampledFrom, hf, h0]

/-- C7: under the multi-face policy, at most 10 crops are written per
record; the crops written are exactly the first (up to 10) faces detected
on the sampled (every-30th) frames, with no size filter; and the call
reports failure exactly when zero crops were collected. -/
theorem extract_faces_multi_policy (video : Video) (fs : FS)
    (face_dir youtube_id : String) :
    (extract_faces_multi video fs face_dir youtube_id).writes.length ≤ 10 ∧
    ((extract_faces_multi video fs face_dir youtube_id).result = false ↔
      (extract_faces_multi video fs face_dir youtube_id).writes = []) ∧
    (extract_faces_multi video fs face_dir youtube_id).writes =
      ((sampledFrom 0 (videoFrames video)).flatten).take 10 := by
  cases video with
  | none => simp [extract_faces_multi, videoFrames, sampledFrom]
  | some frames =>
    have hw : (extract_faces_multi (some frames) fs face_dir youtube_id).writes =
        ((sampledFrom 0 frames).flatten).take 10 := by
      simp [extract_faces_multi, scanMulti_eq_take]
    refine ⟨?_, ?_, by simpa [videoFrames] using hw⟩
    · rw [hw]
      have := List.length_take 10 ((sampledFrom 0 frames).flatten)
      omega
    · simp only [extract_faces_multi]
      constructor
      · intro h
        simp only [decide_eq_false_iff_not, Nat.not_lt, Nat.le_zero] at h
        exact List.length_eq_zero.mp h
      · intro h
        simp [h]

/-- Witness for C7: a video whose 30th frame carries two small faces
(well under 50×50); both are written (no size filter applies). -/
theorem extract_faces_multi_policy_witness :
    (extract_faces_multi (some (List.replicate 29 [] ++ [[⟨0, 0, 10, 10⟩, ⟨1, 1, 20, 20⟩]]))
      FS.empty "faces" "v").writes.length ≤ 10 ∧
    (extract_faces_multi (some (List.replicate 29 [] ++ [[⟨0, 0, 10, 10⟩, ⟨1, 1, 20, 20⟩]]))
      FS.empty "faces" "v").writes = [⟨0, 0, 10, 10⟩, ⟨1, 1, 20, 20⟩] := by
  have h := extract_faces_multi_policy
    (some (List.replicate 29 [] ++ [[⟨0, 0, 10, 10⟩, ⟨1, 1, 20, 20⟩]])) FS.empty "faces" "v"
  exact ⟨h.1, by decide⟩

/-! ### Elementary filesystem and stage lemmas -/

theorem FS.put_mono (fs : FS) (p q : String) (h : fs q = true) : fs.put p q = true := by
  simp [FS.put, h]

theorem FS.put_self (fs : FS) (p : String) : fs.put p p = true := by
  simp [FS.put]

theorem FS.del_self (fs : FS) (p : String) : fs.del p p = false := by
  simp [FS.del]

theorem FS.del_other (fs : FS) (p q : String) (h : q ≠ p) : fs.del p q = fs q := by
  simp [FS.del, h]

theorem extract_audio_fs_mono (w : AudioWorld) (fs : FS) (vp ap : String)
    (st et : Option ℚ) (q : String) (h : fs q = true) :
    (extract_audio w fs vp ap st et).fs q = true := by
  cases hr : w.runOk <;> cases hc : w.creates <;>
    simp [extract_audio, hr, hc, FS.put_mono, h]

theorem extract_audio_result_fs (w : AudioWorld) (fs : FS) (vp ap : String)
    (st et : Option ℚ) (h : (extract_audio w fs vp ap st et).result = true) :
    (extract_audio w fs vp ap st et).fs ap = true := by
  cases hr : w.runOk
  · simp [extract_audio, hr] at h
  · simpa [extract_audio, hr] using h

theorem extract_faces_fs_mono (video : Video) (fs : FS) (face_path q : String)
    (h : fs q = true) : (extract_faces video fs face_path).fs q = true := by
  cases video with
  | none => simpa [extract_faces] using h
  | some frames =>
    cases hs : scanSingle 0 frames <;> simp [extract_faces, hs, FS.put_mono, h]

theorem extract_faces_result_fs (video : Video) (fs : FS) (face_path : String)
    (h : (extract_faces video fs face_path).result = true) :
    (extract_faces video fs face_path).fs face_path = true := by
  cases video with
  | none => simp [extract_faces] at h
  | some frames =>
    cases hs : scanSingle 0 frames with
    | some f => simp [extract_faces, hs, FS.put_self]
    | none => simp [extract_faces, hs] at h

theorem append_ne_of_last_ne (a b s t : String) (hs : s.data ≠ []) (ht : t.data ≠ [])
    (h : s.data.getLast? ≠ t.data.getLast?) : a ++ s ≠ b ++ t := by
  intro he
  have hd := congrArg String.data he
  rw [String.data_append, String.data_append] at hd
  have h2 := congrArg List.getLast? hd
  rw [List.getLast?_append_of_ne_nil _ hs, List.getLast?_append_of_ne_nil _ ht] at h2
  exact h h2

theorem audioPath_ne_videoPath (cfg : Config) (youtube_id : String) :
    audioPathOf cfg youtube_id ≠ videoPathOf cfg youtube_id := by
  unfold audioPathOf videoPathOf pjoin
  rw [← String.append_assoc, ← String.append_assoc]
  exact append_ne_of_last_ne _ _ _ _ (by decide) (by decide) (by decide)

theorem facePath_ne_videoPath (cfg : Config) (youtube_id : String) :
    facePathOf cfg youtube_id ≠ videoPathOf cfg youtube_id := by
  unfold facePathOf videoPathOf pjoin
  rw [← String.append_assoc, ← String.append_assoc]
  exact append_ne_of_last_ne _ _ _ _ (by decide) (by decide) (by decide)

/-- Case characterization of `process_video`: every run falls into exactly
one of the six control-flow paths of the source — download failed, audio
failed, face failed, cleanup-and-success, cleanup raised, or success with
no video file present. -/
theorem process_video_cases (cfg : Config) (w : PWorld) (fs : FS)
    (youtube_id : String) (st et : Option ℚ) :
    ((dlOf cfg w fs youtube_id).result = false ∧
      process_video cfg w fs youtube_id st et =
        ⟨false, (dlOf cfg w fs youtube_id).fs, (dlOf cfg w fs youtube_id).logs⟩) ∨
    ((dlOf cfg w fs youtube_id).result = true ∧
      (auOf cfg w fs youtube_id st et).result = false ∧
      process_video cfg w fs youtube_id st et =
        ⟨false, (auOf cfg w fs youtube_id st et).fs, (dlOf cfg w fs youtube_id).logs⟩) ∨
    ((dlOf cfg w fs youtube_id).result = true ∧
      (auOf cfg w fs youtube_id st et).result = true ∧
      (fcOf cfg w fs youtube_id st et).result = false ∧
      process_video cfg w fs youtube_id st et =
        ⟨false, (fcOf cfg w fs youtube_id st et).fs, (dlOf cfg w fs youtube_id).logs⟩) ∨
    ((dlOf cfg w fs youtube_id).result = true ∧
      (auOf cfg w fs youtube_id st et).result = true ∧
      (fcOf cfg w fs youtube_id st et).result = true ∧
      (fcOf cfg w fs youtube_id st et).fs (videoPathOf cfg youtube_id) = true ∧
      w.removeExc = none ∧
      process_video cfg w fs youtube_id st et =
        ⟨true, (fcOf cfg w fs youtube_id st et).fs.del (videoPathOf cfg youtube_id),
          (dlOf cfg w fs youtube_id).logs⟩) ∨
    ((dlOf cfg w fs youtube_id).result = true ∧
      (auOf cfg w fs youtube_id st et).result = true ∧
      (fcOf cfg w fs youtube_id st et).result = true ∧
      (fcOf cfg w fs youtube_id st et).fs (videoPathOf cfg youtube_id) = true ∧
      (∃ e, w.removeExc = some e ∧
        process_video cfg w fs youtube_id st et =
          ⟨false, (fcOf cfg w fs youtube_id st et).fs,
            (dlOf cfg w fs youtube_id).logs ++ [(youtube_id, "Processing failed", e)]⟩)) ∨
    ((dlOf cfg w fs youtube_id).result = true ∧
      (auOf cfg w fs youtube_id st et).result = true ∧
      (fcOf cfg w fs youtube_id st et).result = true ∧
      (fcOf cfg w fs youtube_id st et).fs (videoPathOf cfg youtube_id) = false ∧
      process_video cfg w fs youtube_id st et =
        ⟨true, (fcOf cfg w fs youtube_id st et).fs, (dlOf cfg w fs youtube_id).logs⟩) := by
  simp only [process_video, process_video_try, dlOf, auOf, fcOf]
  cases h1 : (download_video w.dlEnv cfg.MAX_RETRIES youtube_id
      (videoPathOf cfg youtube_id) fs 0).result with
  | false => left; simp [h1]
  | true =>
    cases h2 : (extract_audio w.audio
        (download_video w.dlEnv cfg.MAX_RETRIES youtube_id
          (videoPathOf cfg youtube_id) fs 0).fs
        (videoPathOf cfg youtube_id) (audioPathOf cfg youtube_id) st et).result with
    | false => right; left; simp [h1, h2]
    | true =>
      cases h3 : (extract_faces w.video
          (extract_audio w.audio
            (download_video w.dlEnv cfg.MAX_RETRIES youtube_id
              (videoPathOf cfg youtube_id) fs 0).fs
            (videoPathOf cfg youtube_id) (audioPathOf cfg youtube_id) st et).fs
          (facePathOf cfg youtube_id)).result with
      | false => right; right; left; simp [h1, h2, h3]
      | true =>
        cases h4 : (extract_faces w.video
            (extract_audio w.audio
              (download_video w.dlEnv cfg.MAX_RETRIES youtube_id
                (videoPathOf cfg youtube_id) fs 0).fs
              (videoPathOf cfg youtube_id) (audioPathOf cfg youtube_id) st et).fs
            (facePathOf cfg youtube_id)).fs (videoPathOf cfg youtube_id) with
        | false =>
          right; right; right; right; right; simp [h1, h2, h3, h4]
        | true =>
          cases h5 : w.removeExc with
          | none => right; right; right; left; simp [h1, h2, h3, h4, h5]
          | some e =>
            right; right; right; right; left
            refine ⟨rfl, rfl, rfl, rfl, e, rfl, ?_⟩
            simp [h1, h2, h3, h4, h5]

theorem dlOf_result_fs (cfg : Config) (w : PWorld) (fs : FS) (youtube_id : String)
    (h : (dlOf cfg w fs youtube_id).result = true) :
    (dlOf cfg w fs youtube_id).fs (videoPathOf cfg youtube_id) = true := by
  simp only [dlOf, download_video] at h ⊢
  exact downloadAux_result_fs w.dlEnv youtube_id (videoPathOf cfg youtube_id) _ fs 0 h

theorem dlOf_logs_nil (cfg : Config) (w : PWorld) (fs : FS) (youtube_id : String)
    (h : (dlOf cfg w fs youtube_id).result = true) :
    (dlOf cfg w fs youtube_id).logs = [] := by
  simp only [dlOf, download_video] at h ⊢
  exact downloadAux_logs_nil w.dlEnv youtube_id (videoPathOf cfg youtube_id) _ fs 0 h

/-! ### The pipeline invariants (C1, C2, C4, C8) -/

/-- C2: whenever `process_video` returns success, the audio artifact
`{id}_audio.wav` and the face artifact `{id}_face.jpg` exist on the final
filesystem (there is exactly one such path per record, derived from the
unique identifier), and the transient video artifact `{id}_full.mp4` does
not exist. -/
theorem process_video_success_artifacts (cfg : Config) (w : PWorld) (fs : FS)
    (youtube_id : String) (st et : Option ℚ)
    (h : (process_video cfg w fs youtube_id st et).result = true) :
    (process_video cfg w fs youtube_id st et).fs (audioPathOf cfg youtube_id) = true ∧
    (process_video cfg w fs youtube_id st et).fs (facePathOf cfg youtube_id) = true ∧
    (process_video cfg w fs youtube_id st et).fs (videoPathOf cfg youtube_id) = false := by
  have hau : (auOf cfg w fs youtube_id st et).result = true →
      (auOf cfg w fs youtube_id st et).fs (audioPathOf cfg youtube_id) = true := by
    intro h2
    simp only [auOf] at h2 ⊢
    exact extract_audio_result_fs _ _ _ _ _ _ h2
  have hfc : (fcOf cfg w fs youtube_id st et).result = true →
      (fcOf cfg w fs youtube_id st et).fs (facePathOf cfg youtube_id) = true := by
    intro h3
    simp only [fcOf] at h3 ⊢
    exact extract_faces_result_fs _ _ _ h3
  have hmono : ∀ q, (auOf cfg w fs youtube_id st et).fs q = true →
      (fcOf cfg w fs youtube_id st et).fs q = true := by
    intro q hq
    simp only [fcOf]
    exact extract_faces_fs_mono _ _ _ _ hq
  rcases process_video_cases cfg w fs youtube_id st et with
    ⟨h1, heq⟩ | ⟨h1, h2, heq⟩ | ⟨h1, h2, h3, heq⟩ | ⟨h1, h2, h3, h4, h5, heq⟩ |
    ⟨h1, h2, h3, h4, e, h5, heq⟩ | ⟨h1, h2, h3, h4, heq⟩
  · rw [heq] at h; cases h
  · rw [heq] at h; cases h
  · rw [heq] at h; cases h
  · rw [heq]
    refine ⟨?_, ?_, ?_⟩
    · show ((fcOf cfg w fs youtube_id st et).fs.del
        (videoPathOf cfg youtube_id)) (audioPathOf cfg youtube_id) = true
      rw [FS.del_other _ _ _ (audioPath_ne_videoPath cfg youtube_id)]
      exact hmono _ (hau h2)
    · show ((fcOf cfg w fs youtube_id st et).fs.del
        (videoPathOf cfg youtube_id)) (facePathOf cfg youtube_id) = true
      rw [FS.del_other _ _ _ (facePath_ne_videoPath cfg youtube_id)]
      exact hfc h3
    · exact FS.del_self _ _
  · rw [heq] at h; cases h
  · rw [heq]
    exact ⟨hmono _ (hau h2), hfc h3, h4⟩

/-- Witness for C2 at a concrete fully-successful world (download writes
the video, ffmpeg writes the audio, the 30th frame carries a 60×70
face). -/
theorem process_video_success_artifacts_witness :
    (process_video ⟨"out", "audio", "faces", 3⟩
      ⟨fun _ => ⟨Except.ok (), true⟩, ⟨true, true⟩,
        some (List.replicate 29 [] ++ [[⟨0, 0, 60, 70⟩]]), none⟩
      FS.empty "vid" none none).fs (audioPathOf ⟨"out", "audio", "faces", 3⟩ "vid") = true ∧
    (process_video ⟨"out", "audio", "faces", 3⟩
      ⟨fun _ => ⟨Except.ok (), true⟩, ⟨true, true⟩,
        some (List.replicate 29 [] ++ [[⟨0, 0, 60, 70⟩]]), none⟩
      FS.empty "vid" none none).fs (facePathOf ⟨"out", "audio", "faces", 3⟩ "vid") = true ∧
    (process_video ⟨"out", "audio", "faces", 3⟩
      ⟨fun _ => ⟨Except.ok (), true⟩, ⟨true, true⟩,
        some (List.replicate 29 [] ++ [[⟨0, 0, 60, 70⟩]]), none⟩
      FS.empty "vid" none none).fs (videoPathOf ⟨"out", "audio", "faces", 3⟩ "vid") = false :=
  process_video_success_artifacts ⟨"out", "audio", "faces", 3⟩
    ⟨fun _ => ⟨Except.ok (), true⟩, ⟨true, true⟩,
      some (List.replicate 29 [] ++ [[⟨0, 0, 60, 70⟩]]), none⟩
    FS.empty "vid" none none (by decide)

/-- C1 counterexample: a run in which the download succeeds (and writes
`out/vid_full.mp4`) but audio extraction then fails. `process_video`
returns `False`, yet the transient video artifact still exists afterward —
no cleanup happens on this failure path, refuting the claim that every
failure after a successful download leaves no video artifact behind. -/
theorem process_video_cleanup_counterexample :
    (process_video ⟨"out", "audio", "faces", 3⟩
      ⟨fun _ => ⟨Except.ok (), true⟩, ⟨false, false⟩, some [], none⟩
      FS.empty "vid" none none).result = false ∧
    (dlOf ⟨"out", "audio", "faces", 3⟩
      ⟨fun _ => ⟨Except.ok (), true⟩, ⟨false, false⟩, some [], none⟩
      FS.empty "vid").result = true ∧
    (process_video ⟨"out", "audio", "faces", 3⟩
      ⟨fun _ => ⟨Except.ok (), true⟩, ⟨false, false⟩, some [], none⟩
      FS.empty "vid" none none).fs (videoPathOf ⟨"out", "audio", "faces", 3⟩ "vid") = true := by
  refine ⟨?_, ?_, ?_⟩ <;> decide

/-- C1 (amended): `process_video` performs no cleanup of the transient
video artifact on any failure path; cleanup happens only on the success
path. Hence whenever the run fails after the download stage succeeded
(which implies the destination file was written), the video artifact
still exists when `process_video` returns. -/
theorem process_video_failure_keeps_video (cfg : Config) (w : PWorld) (fs : FS)
    (youtube_id : String) (st et : Option ℚ)
    (hfail : (process_video cfg w fs youtube_id st et).result = false)
    (hdl : (dlOf cfg w fs youtube_id).result = true) :
    (process_video cfg w fs youtube_id st et).fs (videoPathOf cfg youtube_id) = true := by
  have hdlfs := dlOf_result_fs cfg w fs youtube_id hdl
  have haumono : (auOf cfg w fs youtube_id st et).fs (videoPathOf cfg youtube_id) = true := by
    simp only [auOf]
    exact extract_audio_fs_mono _ _ _ _ _ _ _ hdlfs
  have hfcmono : (fcOf cfg w fs youtube_id st et).fs (videoPathOf cfg youtube_id) = true := by
    simp only [fcOf]
    exact extract_faces_fs_mono _ _ _ _ haumono
  rcases process_video_cases cfg w fs youtube_id st et with
    ⟨h1, heq⟩ | ⟨h1, h2, heq⟩ | ⟨h1, h2, h3, heq⟩ | ⟨h1, h2, h3, h4, h5, heq⟩ |
    ⟨h1, h2, h3, h4, e, h5, heq⟩ | ⟨h1, h2, h3, h4, heq⟩
  · rw [h1] at hdl; cases hdl
  · rw [heq]; exact haumono
  · rw [heq]; exact hfcmono
  · rw [heq] at hfail; cases hfail
  · rw [heq]; exact hfcmono
  · rw [heq] at hfail; cases hfail

/-- Witness for C1 (amended) at the concrete download-succeeds /
audio-fails world. -/
theorem process_video_failure_keeps_video_witness :
    (process_video ⟨"out", "audio", "faces", 3⟩
      ⟨fun _ => ⟨Except.ok (), true⟩, ⟨false, false⟩, some [], some "boom"⟩
      FS.empty "vid" none none).fs (videoPathOf ⟨"out", "audio", "faces", 3⟩ "vid") = true :=
  process_video_failure_keeps_video ⟨"out", "audio", "faces", 3⟩
    ⟨fun _ => ⟨Except.ok (), true⟩, ⟨false, false⟩, some [], some "boom"⟩
    FS.empty "vid" none none (by decide) (by decide)

/-- C4 counterexample: the end-to-end scenario of the claim — three
records, one failing its download after exhausting all retries, one
failing face detection (no faces in the video), and one fully succeeding.
The final stats do report attempted = 3, succeeded = 1, failed = 2, but
the failure log contains exactly ONE line (the download failure), not
two: the face-detection failure appends no line. -/
theorem failure_log_lines_counterexample :
    (runRecords ⟨"out", "audio", "faces", 3⟩
      [(⟨fun _ => ⟨Except.error "network", false⟩, ⟨true, true⟩, some [], none⟩, "vid1", none, none),
       (⟨fun _ => ⟨Except.ok (), true⟩, ⟨true, true⟩, some [], none⟩, "vid2", none, none),
       (⟨fun _ => ⟨Except.ok (), true⟩, ⟨true, true⟩,
         some (List.replicate 29 [] ++ [[⟨0, 0, 60, 70⟩]]), none⟩, "vid3", none, none)]
      FS.empty (ProgressTracker.init 3) []).2.1.current_item = 3 ∧
    (runRecords ⟨"out", "audio", "faces", 3⟩
      [(⟨fun _ => ⟨Except.error "network", false⟩, ⟨true, true⟩, some [], none⟩, "vid1", none, none),
       (⟨fun _ => ⟨Except.ok (), true⟩, ⟨true, true⟩, some [], none⟩, "vid2", none, none),
       (⟨fun _ => ⟨Except.ok (), true⟩, ⟨true, true⟩,
         some (List.replicate 29 [] ++ [[⟨0, 0, 60, 70⟩]]), none⟩, "vid3", none, none)]
      FS.empty (ProgressTracker.init 3) []).2.1.completed = 1 ∧
    (runRecords ⟨"out", "audio", "faces", 3⟩
      [(⟨fun _ => ⟨Except.error "network", false⟩, ⟨true, true⟩, some [], none⟩, "vid1", none, none),
       (⟨fun _ => ⟨Except.ok (), true⟩, ⟨true, true⟩, some [], none⟩, "vid2", none, none),
       (⟨fun _ => ⟨Except.ok (), true⟩, ⟨true, true⟩,
         some (List.replicate 29 [] ++ [[⟨0, 0, 60, 70⟩]]), none⟩, "vid3", none, none)]
      FS.empty (ProgressTracker.init 3) []).2.1.failed = 2 ∧
    (runRecords ⟨"out", "audio", "faces", 3⟩
      [(⟨fun _ => ⟨Except.error "network", false⟩, ⟨true, true⟩, some [], none⟩, "vid1", none, none),
       (⟨fun _ => ⟨Except.ok (), true⟩, ⟨true, true⟩, some [], none⟩, "vid2", none, none),
       (⟨fun _ => ⟨Except.ok (), true⟩, ⟨true, true⟩,
         some (List.replicate 29 [] ++ [[⟨0, 0, 60, 70⟩]]), none⟩, "vid3", none, none)]
      FS.empty (ProgressTracker.init 3) []).2.2 = [("vid1", "Download failed", "network")] ∧
    (runRecords ⟨"out", "audio", "faces", 3⟩
      [(⟨fun _ => ⟨Except.error "network", false⟩, ⟨true, true⟩, some [], none⟩, "vid1", none, none),
       (⟨fun _ => ⟨Except.ok (), true⟩, ⟨true, true⟩, some [], none⟩, "vid2", none, none),
       (⟨fun _ => ⟨Except.ok (), true⟩, ⟨true, true⟩,
         some (List.replicate 29 [] ++ [[⟨0, 0, 60, 70⟩]]), none⟩, "vid3", none, none)]
      FS.empty (ProgressTracker.init 3) []).2.2.length ≠ 2 := by
  refine ⟨?_, ?_, ?_, ?_, ?_⟩ <;> decide

/-- C4 (amended): a failure-log line is appended only when the download
fails after exhausting its retries, or when an exception reaches the
pipeline's outer handler. When the download succeeded and no such
exception occurs, a failing record — audio-extraction or face-detection
failure — appends no line at all; in the claim's three-record scenario the
log therefore holds exactly one line, not two. -/
theorem process_video_no_log_on_stage_failure (cfg : Config) (w : PWorld) (fs : FS)
    (youtube_id : String) (st et : Option ℚ)
    (hdl : (dlOf cfg w fs youtube_id).result = true)
    (hexc : w.removeExc = none) :
    (process_video cfg w fs youtube_id st et).logs = [] := by
  have hnil := dlOf_logs_nil cfg w fs youtube_id hdl
  rcases process_video_cases cfg w fs youtube_id st et with
    ⟨h1, heq⟩ | ⟨h1, h2, heq⟩ | ⟨h1, h2, h3, heq⟩ | ⟨h1, h2, h3, h4, h5, heq⟩ |
    ⟨h1, h2, h3, h4, e, h5, heq⟩ | ⟨h1, h2, h3, h4, heq⟩
  · rw [h1] at hdl; cases hdl
  · rw [heq]; exact hnil
  · rw [heq]; exact hnil
  · rw [heq]; exact hnil
  · rw [h5] at hexc; cases hexc
  · rw [heq]; exact hnil

/-- Witness for C4 (amended): a record whose download succeeds and whose
face detection fails (empty video) appends no failure-log line although
its outcome is failure. -/
theorem process_video_no_log_on_stage_failure_witness :
    (process_video ⟨"out", "audio", "faces", 3⟩
      ⟨fun _ => ⟨Except.ok (), true⟩, ⟨true, true⟩, some [], none⟩
      FS.empty "vid2" none none).logs = [] :=
  process_video_no_log_on_stage_failure ⟨"out", "audio", "faces", 3⟩
    ⟨fun _ => ⟨Except.ok (), true⟩, ⟨true, true⟩, some [], none⟩
    FS.empty "vid2" none none (by decide) rfl

/-- C8: `process_video` always terminates with a definite boolean outcome
and never lets an exception escape: its result is the `try:` block's result
when that block completes, and when the block raises, the handler returns
`False` with the exception logged as a `"Processing failed"` line. -/
theorem process_video_definite_outcome (cfg : Config) (w : PWorld) (fs : FS)
    (youtube_id : String) (st et : Option ℚ) :
    ∃ b fs1 logs, process_video cfg w fs youtube_id st et = ⟨b, fs1, logs⟩ ∧
      (∀ e fs2 logs2,
        process_video_try cfg w fs youtube_id st et = Except.error (e, fs2, logs2) →
        b = false ∧ fs1 = fs2 ∧ logs = logs2 ++ [(youtube_id, "Processing failed", e)]) := by
  cases htry : process_video_try cfg w fs youtube_id st et with
  | ok r =>
    refine ⟨r.result, r.fs, r.logs, by simp [process_video, htry], ?_⟩
    intro e fs2 logs2 h
    cases h
  | error a =>
    obtain ⟨e, fs2, logs2⟩ := a
    refine ⟨false, fs2, logs2 ++ [(youtube_id, "Processing failed", e)],
      by simp [process_video, htry], ?_⟩
    intro e' fs2' logs2' h
    injection h with h
    rw [Prod.mk.injEq, Prod.mk.injEq] at h
    obtain ⟨rfl, rfl, rfl⟩ := h
    exact ⟨rfl, rfl, rfl⟩

end YT
